import Mathlib

/-!
Verification development for the `benchFitModel` benchmark
(`src/root/roofit/vectorisedPDFs/benchFitModel.cxx`) and the batched
probability-density / negative-log-likelihood engine specified around it.

The benchmark source itself contains `randomiseParameters`, the mixture-model
construction with its coefficient values, and the benchmark loop; those are
embedded directly from the source.  The evaluation engine underneath
(component densities, the NLL reduction, the Scalar / VectorBatch /
Accelerator strategies, the strategy-configuration error handling and the
random generator object) is library code that is not part of the repository
sources, so those definitions are modelled from the specification, as marked
in their doc comments.

Floating-point `double` arithmetic is modelled by exact arithmetic
(`ℚ` where executability matters, `ℝ` where `exp`/`log`/`Γ` are needed);
`ℝ` has no NaN and no infinities, so "finite, not NaN" claims are expressed
as plain equalities and inequalities over `ℝ`.
-/

namespace BenchFitModel

/-! ## Random generator and parameter randomisation -/

/-- Modelled from the spec: the seedable uniform random generator object
(the source uses the `RooRandom::randomGenerator()` process-wide singleton,
whose `TRandom` implementation is not part of the repository sources).
The generator state is a single natural number; `SetSeed` replaces it. -/
structure RNGState where
  state : ℕ
deriving DecidableEq

/-- Modelled from the spec: one step of the generator (a linear congruential
step modulo `2^31`, standing in for the library generator). -/
def rngNext (s : ℕ) : ℕ := (1103515245 * s + 12345) % 2147483648

/-- Modelled from the spec: `random->SetSeed(seed)`. -/
def setSeed (seed : ℕ) : RNGState := ⟨seed⟩

/-- Modelled from the spec: `random->Uniform()`, a deterministic function of
the generator state returning a value in `[0,1]` and the advanced state. -/
def uniform (g : RNGState) : ℚ × RNGState :=
  ((rngNext g.state : ℚ) / 2147483648, ⟨rngNext g.state⟩)

/-- A fit parameter: name, current value and bounds, as in the spec's data
model (`RooRealVar` with `getMin`/`getMax`/`setVal` in the source). -/
structure Param where
  name : String
  value : ℚ
  min : ℚ
  max : ℚ
deriving DecidableEq

/-- `par->setVal(min + uni * (max - min))` — source line 51. -/
def setValUniform (par : Param) (uni : ℚ) : Param :=
  { par with value := par.min + uni * (par.max - par.min) }

/-- The loop body of `randomiseParameters` (source lines 46–52): draw one
uniform per parameter, left to right, threading the generator state. -/
def randomiseList (g : RNGState) : List Param → List Param × RNGState
  | [] => ([], g)
  | par :: rest =>
      (setValUniform par (uniform g).1 :: (randomiseList (uniform g).2 rest).1,
       (randomiseList (uniform g).2 rest).2)

/-- `randomiseParameters` (source lines 40–53).  The `g` argument models the
state of the process-wide `RooRandom` generator singleton at call time; it is
reset by `SetSeed` exactly when `seed != 0`. -/
def randomiseParameters (parameters : List Param) (seed : ℕ) (g : RNGState) :
    List Param × RNGState :=
  randomiseList (if seed ≠ 0 then setSeed seed else g) parameters

/-- A concrete parameter used to instantiate witness statements. -/
def paramA : Param := { name := "a", value := 0, min := 0, max := 1 }

/-! ### Helper lemmas about the generator and randomisation -/

theorem uniform_nonneg (g : RNGState) : 0 ≤ (uniform g).1 := by
  unfold uniform
  positivity

theorem uniform_le_one (g : RNGState) : (uniform g).1 ≤ 1 := by
  unfold uniform
  rw [div_le_one (by norm_num)]
  have h : rngNext g.state < 2147483648 := Nat.mod_lt _ (by norm_num)
  exact_mod_cast h.le

theorem setValUniform_bounds (par : Param) (u : ℚ) (hu0 : 0 ≤ u) (hu1 : u ≤ 1)
    (h : par.min ≤ par.max) :
    par.min ≤ (setValUniform par u).value ∧ (setValUniform par u).value ≤ par.max := by
  unfold setValUniform
  constructor
  · have := mul_nonneg hu0 (sub_nonneg.mpr h)
    simp only
    linarith
  · have := mul_le_of_le_one_left (sub_nonneg.mpr h) hu1
    simp only
    linarith

theorem setValUniform_min (par : Param) (u : ℚ) : (setValUniform par u).min = par.min := rfl

theorem setValUniform_max (par : Param) (u : ℚ) : (setValUniform par u).max = par.max := rfl

theorem randomiseList_mem (g : RNGState) (ps : List Param) (p : Param)
    (hp : p ∈ (randomiseList g ps).1) :
    ∃ par u, 0 ≤ u ∧ u ≤ 1 ∧ p = setValUniform par u := by
  induction ps generalizing g with
  | nil => simp [randomiseList] at hp
  | cons par rest ih =>
      simp only [randomiseList, List.mem_cons] at hp
      rcases hp with h | h
      · exact ⟨par, (uniform g).1, uniform_nonneg g, uniform_le_one g, h⟩
      · exact ih (uniform g).2 h

/-! ## Component density primitives -/

/-- Modelled from the spec: the Gaussian(mean, sigma) component density
(the `RooGaussian` implementation is not part of the repository sources):
the closed-form Gaussian density formula. -/
noncomputable def gaussianEval (mean sigma x : ℝ) : ℝ :=
  Real.exp (-(x - mean) ^ 2 / (2 * sigma ^ 2)) / (sigma * Real.sqrt (2 * Real.pi))

/-- Modelled from the spec: the Gamma(shape `g`, scale `b`, shift `mu`)
component density (the `RooGamma` implementation is not part of the
repository sources): zero outside the support `x ≥ mu`, and the Gamma
density formula on the support. -/
noncomputable def gammaEval (g b mu x : ℝ) : ℝ :=
  if x < mu then 0
  else (x - mu) ^ (g - 1) * Real.exp (-(x - mu) / b) / (Real.Gamma g * b ^ g)

/-- Modelled from the spec: the Polynomial component density with
coefficients starting at order one, `1 + c₀·x + c₁·x² + ⋯` (as built by the
`Polynomial::pol(x,a)` factory line), clamped to be a non-negative density
value per the spec's Component Density contract (`RooPolynomial` itself is
not part of the repository sources). -/
noncomputable def polynomialEval (coeffs : List ℝ) (x : ℝ) : ℝ :=
  max 0 (1 + x * coeffs.foldr (fun c acc => c + x * acc) 0)

/-- Modelled from the spec: the Exponential(rate) component density
(the implementation is not part of the repository sources). -/
noncomputable def exponentialEval (rate x : ℝ) : ℝ :=
  Real.exp (-(rate * x))

/-! ### Non-negativity helper lemmas -/

theorem gaussianEval_nonneg (mean sigma x : ℝ) (hs : 0 < sigma) :
    0 ≤ gaussianEval mean sigma x := by
  unfold gaussianEval
  have h2 : 0 < Real.sqrt (2 * Real.pi) :=
    Real.sqrt_pos.mpr (by positivity)
  positivity

theorem gammaEval_nonneg (g b mu x : ℝ) (hg : 0 < g) (hb : 0 < b) :
    0 ≤ gammaEval g b mu x := by
  unfold gammaEval
  by_cases h : x < mu
  · simp [h]
  · rw [if_neg h]
    push_neg at h
    have hx : 0 ≤ x - mu := sub_nonneg.mpr h
    have h1 : 0 ≤ (x - mu) ^ (g - 1) := Real.rpow_nonneg hx _
    have h2 : 0 < Real.exp (-(x - mu) / b) := Real.exp_pos _
    have h3 : 0 < Real.Gamma g := Real.Gamma_pos_of_pos hg
    have h4 : 0 < b ^ g := Real.rpow_pos_of_pos hb _
    positivity

theorem polynomialEval_nonneg (coeffs : List ℝ) (x : ℝ) :
    0 ≤ polynomialEval coeffs x :=
  le_max_left 0 _

theorem exponentialEval_nonneg (rate x : ℝ) : 0 ≤ exponentialEval rate x :=
  (Real.exp_pos _).le

/-! ## The benchmark mixture model -/

/-- `nEvents` — source line 64. -/
def nEvents : ℕ := 100000

/-- A mixture model: an ordered list of (coefficient, component density)
pairs, as in the spec's data model. -/
noncomputable def mixtureEval (terms : List (ℝ × (ℝ → ℝ))) (x : ℝ) : ℝ :=
  (terms.map fun t => t.1 * t.2 x).sum

/-- The benchmark's mixture model `SUM::model(ns1*vpdf, ns2*gpdf, ng2*g2,
ng3*g3, npol*pol)` with the component parameters of source lines 71–75 and
the coefficient values set in source lines 81–85. -/
noncomputable def benchTerms : List (ℝ × (ℝ → ℝ)) :=
  [(0.2 * (nEvents : ℝ), gammaEval 20 0.5 0),
   (0.3 * (nEvents : ℝ), gaussianEval 10 2),
   (0.1 * (nEvents : ℝ), gaussianEval 5 0.3),
   (0.1 * (nEvents : ℝ), gaussianEval 15 0.4),
   (0.3 * (nEvents : ℝ), polynomialEval [-0.01])]

/-! ## Batched evaluation engine and objective reducer -/

/-- The evaluation-strategy variants of the spec's data model. -/
inductive EvaluationStrategy
  | scalar
  | vectorBatch
  | accelerator
deriving DecidableEq

/-- Incidental per-run execution context (SIMD chunk width, accelerator
stream), which may differ between two runs with identical logical inputs. -/
structure EvalContext where
  chunkWidth : ℕ
  streamId : ℕ

/-- Modelled from the spec: the per-observation NLL contribution,
`-log(density)` with the density clamped from below at the configured
floor so that degenerate proposals give a large-but-finite penalty. -/
noncomputable def nllTerm (floor : ℝ) (model : ℝ → ℝ) (x : ℝ) : ℝ :=
  -Real.log (max (model x) floor)

/-- Modelled from the spec: the Scalar strategy — one observation at a time,
reduced left to right. -/
noncomputable def nllScalar (floor : ℝ) (model : ℝ → ℝ) (obs : List ℝ) : ℝ :=
  obs.foldl (fun acc x => acc + nllTerm floor model x) 0

/-- Split a list into chunks of width `w + 1` (so the chunk width is always
positive); the final chunk may be shorter. -/
def chunkFuel (w : ℕ) : ℕ → List ℝ → List (List ℝ)
  | 0, _ => []
  | _, [] => []
  | fuel + 1, x :: xs => (x :: xs.take w) :: chunkFuel w fuel (xs.drop w)

/-- Modelled from the spec: the VectorBatch strategy — partition the
observation array into fixed-width chunks, reduce each chunk left to right,
then sum the per-chunk partial sums. -/
noncomputable def nllVector (floor : ℝ) (model : ℝ → ℝ) (w : ℕ) (obs : List ℝ) : ℝ :=
  ((chunkFuel w obs.length obs).map fun c =>
    c.foldl (fun acc x => acc + nllTerm floor model x) 0).sum

/-- Modelled from the spec: the Accelerator strategy — evaluate every
observation's contribution in a data-parallel map, then reduce. -/
noncomputable def nllAccel (floor : ℝ) (model : ℝ → ℝ) (obs : List ℝ) : ℝ :=
  (obs.map (nllTerm floor model)).sum

/-- Modelled from the spec: one NLL evaluation run, dispatching on the
requested strategy; only the batched strategies consult the run context. -/
noncomputable def nllRun (floor : ℝ) (model : ℝ → ℝ) (obs : List ℝ) :
    EvaluationStrategy → EvalContext → ℝ
  | .scalar, _ => nllScalar floor model obs
  | .vectorBatch, ctx => nllVector floor model ctx.chunkWidth obs
  | .accelerator, _ => nllAccel floor model obs

/-! ### Reduction lemmas: all strategies compute the same real number -/

theorem foldl_add_eq_sum (f : ℝ → ℝ) (a : ℝ) (l : List ℝ) :
    l.foldl (fun acc x => acc + f x) a = a + (l.map f).sum := by
  induction l generalizing a with
  | nil => simp
  | cons x xs ih => simp [ih, add_assoc]

theorem nllScalar_eq_sum (floor : ℝ) (model : ℝ → ℝ) (obs : List ℝ) :
    nllScalar floor model obs = (obs.map (nllTerm floor model)).sum := by
  unfold nllScalar
  rw [foldl_add_eq_sum, zero_add]

theorem chunkFuel_map_sum (f : ℝ → ℝ) (w fuel : ℕ) (l : List ℝ) (h : l.length ≤ fuel) :
    ((chunkFuel w fuel l).map fun c => (c.map f).sum).sum = (l.map f).sum := by
  induction fuel generalizing l with
  | zero =>
      have : l = [] := List.length_eq_zero.mp (Nat.le_zero.mp h)
      subst this
      simp [chunkFuel]
  | succ n ih =>
      cases l with
      | nil => simp [chunkFuel]
      | cons x xs =>
          have hlen : (xs.drop w).length ≤ n := by
            simp only [List.length_drop]
            simp only [List.length_cons] at h
            omega
          simp only [chunkFuel, List.map_cons, List.sum_cons, ih (xs.drop w) hlen]
          rw [List.map_take, List.map_drop, add_assoc, List.sum_take_add_sum_drop]

theorem nllVector_eq_scalar (floor : ℝ) (model : ℝ → ℝ) (w : ℕ) (obs : List ℝ) :
    nllVector floor model w obs = nllScalar floor model obs := by
  unfold nllVector
  rw [nllScalar_eq_sum]
  rw [← chunkFuel_map_sum (nllTerm floor model) w obs.length obs le_rfl]
  simp only [foldl_add_eq_sum, zero_add]

theorem nllAccel_eq_scalar (floor : ℝ) (model : ℝ → ℝ) (obs : List ℝ) :
    nllAccel floor model obs = nllScalar floor model obs := by
  rw [nllScalar_eq_sum]; rfl

/-! ## Strategy configuration and error taxonomy -/

/-- The error taxonomy of the spec's error-handling design. -/
inductive EngineError
  | StrategyUnavailableError
  | InvalidModelError
  | ShapeMismatchError
deriving DecidableEq

/-- Modelled from the spec: configuration-time strategy selection.  The
Accelerator strategy is optional: when it is absent at build/run time the
engine reports `StrategyUnavailableError` instead of substituting another
strategy (in the source, the CUDA variant is guarded by `#ifdef R__HAS_CUDA`
at lines 117–119 and `BatchMode("cuda")` is only requested when present). -/
def configureStrategy (acceleratorAvailable : Bool) (s : EvaluationStrategy) :
    Except EngineError EvaluationStrategy :=
  match s with
  | .accelerator =>
      if acceleratorAvailable then .ok .accelerator
      else .error .StrategyUnavailableError
  | .scalar => .ok .scalar
  | .vectorBatch => .ok .vectorBatch

/-! ## The benchmark run: data generation and the fit loop -/

/-- `RunConfig_t` — source line 55. -/
inductive RunConfig
  | fitScalar
  | fitCpu
  | fitCuda
deriving DecidableEq

/-- The evaluation strategy each run configuration requests
(`fitTo` without batch mode, `BatchMode("cpu")`, `BatchMode("cuda")` —
source lines 103–109). -/
def strategyOf : RunConfig → EvaluationStrategy
  | .fitScalar => .scalar
  | .fitCpu => .vectorBatch
  | .fitCuda => .accelerator

/-- Modelled from the spec: the dataset generator (`pdf.generate`, source
line 90, whose implementation is not part of the repository sources): draw
`n` observations from the generator, threading its state. -/
def generateData (g : RNGState) : ℕ → List ℚ × RNGState
  | 0 => ([], g)
  | n + 1 =>
      ((uniform g).1 :: (generateData (uniform g).2 n).1,
       (generateData (uniform g).2 n).2)

/-- The configured density floor of the objective reducer. -/
noncomputable def floorDefault : ℝ := 1e-300

/-- The immutable per-run benchmark state: the mixture-model structure and
the observation array (source lines 68–90). -/
structure BenchState where
  modelTerms : List (ℝ × (ℝ → ℝ))
  observations : List ℝ

/-- The per-run setup of `benchModel` (source lines 57–90): build the model
once and generate the observation array once, with `nEvents` events. -/
noncomputable def benchInit (g : RNGState) : BenchState :=
  { modelTerms := benchTerms
    observations := (generateData g nEvents).1.map (Rat.cast : ℚ → ℝ) }

/-- Bind an optimizer-proposed coefficient vector positionally into the
mixture model's coefficient slots, leaving the structure unchanged. -/
def bindCoeffs : List (ℝ × (ℝ → ℝ)) → List ℝ → List (ℝ × (ℝ → ℝ))
  | [], _ => []
  | t :: ts, [] => t :: ts
  | t :: ts, c :: cs => (c, t.2) :: bindCoeffs ts cs

/-- One iteration of the benchmark loop (source lines 102–110): a `fitTo`
call.  Modelled from the spec for the fit internals: the external minimizer
repeatedly evaluates the NLL objective for candidate parameter vectors; it
returns updated parameter values and the benchmark state is passed through
untouched. -/
noncomputable def benchIteration (minimizer : (List ℝ → ℝ) → List ℝ → List ℝ)
    (cfg : RunConfig) (ctx : EvalContext) (s : BenchState) (params : List ℝ) :
    BenchState × List ℝ :=
  (s,
   minimizer
     (fun p => nllRun floorDefault (mixtureEval (bindCoeffs s.modelTerms p))
       s.observations (strategyOf cfg) ctx)
     params)

/-- The benchmark timing loop `for (auto _ : state)` (source line 102):
`n` successive fit iterations. -/
noncomputable def benchLoop (minimizer : (List ℝ → ℝ) → List ℝ → List ℝ)
    (cfg : RunConfig) (ctx : EvalContext) :
    ℕ → BenchState × List ℝ → BenchState × List ℝ
  | 0, sp => sp
  | n + 1, sp => benchLoop minimizer cfg ctx n (benchIteration minimizer cfg ctx sp.1 sp.2)

/-! ### Helper lemmas for the benchmark run -/

theorem generateData_length (g : RNGState) (n : ℕ) :
    (generateData g n).1.length = n := by
  induction n generalizing g with
  | zero => rfl
  | succ n ih => simp [generateData, ih]

theorem benchLoop_fst (minimizer : (List ℝ → ℝ) → List ℝ → List ℝ)
    (cfg : RunConfig) (ctx : EvalContext) (n : ℕ) (sp : BenchState × List ℝ) :
    (benchLoop minimizer cfg ctx n sp).1 = sp.1 := by
  induction n generalizing sp with
  | zero => rfl
  | succ n ih => rw [benchLoop, ih]; rfl

/-! ## Claim theorems -/

/-- C1: For every fixed mixture model, observation array and parameter
binding (here: any clamping floor, any bound model density, any observation
list and any run context), the NLL computed by the Scalar strategy and by
the VectorBatch strategy agree within `1e-6` relative tolerance, and so does
the Accelerator strategy; in the exact-arithmetic model the three reductions
compute the same real number, so the relative difference is zero. -/
theorem C1_cross_strategy_agreement (floor : ℝ) (model : ℝ → ℝ) (obs : List ℝ)
    (ctx : EvalContext) :
    |nllRun floor model obs .scalar ctx - nllRun floor model obs .vectorBatch ctx| /
        |nllRun floor model obs .scalar ctx| < 1e-6 ∧
    |nllRun floor model obs .scalar ctx - nllRun floor model obs .accelerator ctx| /
        |nllRun floor model obs .scalar ctx| < 1e-6 := by
  have hv : nllRun floor model obs .vectorBatch ctx = nllRun floor model obs .scalar ctx :=
    nllVector_eq_scalar floor model ctx.chunkWidth obs
  have ha : nllRun floor model obs .accelerator ctx = nllRun floor model obs .scalar ctx :=
    nllAccel_eq_scalar floor model obs
  rw [hv, ha, sub_self, abs_zero, zero_div]
  norm_num

/-- C2: The Scalar evaluation strategy is deterministic: two invocations
with identical mixture model, observation array and parameter binding give
the same NLL value, whatever incidental run context (chunk width, stream)
each invocation carries. -/
theorem C2_scalar_determinism (floor : ℝ) (model : ℝ → ℝ) (obs : List ℝ)
    (c1 c2 : EvalContext) :
    nllRun floor model obs .scalar c1 = nllRun floor model obs .scalar c2 := rfl

/-- C3: For every parameter setting of the Gamma component, the density at
any observation outside the support (any `x` below the shift `mu`; with the
benchmark's `m0 = 0`, any negative observation) is exactly `0` — in the
real-valued model there is no NaN, and `0` is not negative. -/
theorem C3_gamma_support_zero (g b mu x : ℝ) (h : x < mu) :
    gammaEval g b mu x = 0 := by
  unfold gammaEval
  rw [if_pos h]

/-- Witness for C3 at the benchmark's Gamma parameters and a negative
observation. -/
theorem C3_gamma_support_zero_witness :
    (-1 : ℝ) < 0 ∧ gammaEval 20 0.5 0 (-1) = 0 :=
  ⟨by norm_num, C3_gamma_support_zero 20 0.5 0 (-1) (by norm_num)⟩

/-- C4: If the Accelerator strategy is requested while the accelerator
backend is unavailable, configuration reports `StrategyUnavailableError`;
and configuration never silently substitutes a different strategy: a
successful configuration returns exactly the requested strategy. -/
theorem C4_strategy_unavailable (avail : Bool) (s : EvaluationStrategy) :
    (s = .accelerator → avail = false →
      configureStrategy avail s = .error .StrategyUnavailableError) ∧
    (∀ t, configureStrategy avail s = .ok t → t = s) := by
  constructor
  · rintro rfl rfl
    rfl
  · intro t h
    cases s <;> cases avail <;>
      first
        | exact (Except.ok.inj h).symm
        | exact Except.noConfusion h

/-- Witness for C4: requesting the Accelerator strategy without an
accelerator reports the error. -/
theorem C4_strategy_unavailable_witness :
    configureStrategy false .accelerator = .error .StrategyUnavailableError :=
  (C4_strategy_unavailable false .accelerator).1 rfl rfl

/-- C5: Evaluating the benchmark's mixture model at any observation yields a
non-negative value, and the sum of its mixture coefficients
(`ns1 + ns2 + ng2 + ng3 + npol`, set in source lines 81–85) equals the
expected total event count `nEvents = 100000`. -/
theorem C5_mixture_invariant :
    (∀ x : ℝ, 0 ≤ mixtureEval benchTerms x) ∧
    (benchTerms.map Prod.fst).sum = (nEvents : ℝ) ∧ nEvents = 100000 := by
  refine ⟨?_, ?_, rfl⟩
  · intro x
    have h1 := gammaEval_nonneg 20 0.5 0 x (by norm_num) (by norm_num)
    have h2 := gaussianEval_nonneg 10 2 x (by norm_num)
    have h3 := gaussianEval_nonneg 5 0.3 x (by norm_num)
    have h4 := gaussianEval_nonneg 15 0.4 x (by norm_num)
    have h5 := polynomialEval_nonneg [-0.01] x
    unfold mixtureEval benchTerms nEvents
    simp only [List.map_cons, List.map_nil, List.sum_cons, List.sum_nil]
    push_cast
    nlinarith [h1, h2, h3, h4, h5]
  · unfold benchTerms nEvents
    simp only [List.map_cons, List.map_nil, List.sum_cons, List.sum_nil]
    push_cast
    norm_num

/-- C6: An observation whose density falls below the configured floor
contributes exactly `-log(floor)` to the scalar NLL (never `-log 0`; in the
real-valued model the result is an ordinary finite real number). -/
theorem C6_floor_clamping (floor : ℝ) (model : ℝ → ℝ) (x : ℝ) (obs : List ℝ)
    (h : model x < floor) :
    nllScalar floor model (x :: obs) = -Real.log floor + nllScalar floor model obs := by
  rw [nllScalar_eq_sum, nllScalar_eq_sum, List.map_cons, List.sum_cons]
  congr 1
  unfold nllTerm
  rw [max_eq_right h.le]

/-- Witness for C6 at the documented floor `1e-300` and a degenerate density
that evaluates to `0`. -/
theorem C6_floor_clamping_witness :
    (fun _ : ℝ => (0 : ℝ)) 0 < 1e-300 ∧
    nllScalar 1e-300 (fun _ => 0) [0] =
      -Real.log 1e-300 + nllScalar 1e-300 (fun _ => 0) [] :=
  ⟨by norm_num, C6_floor_clamping 1e-300 (fun _ => 0) 0 [] (by norm_num)⟩

/-- C7: Every component-density family used by the model — Gaussian, Gamma,
Polynomial, Exponential — evaluates to a value `≥ 0` at every real
observation, for every parameter value within the declared positive bounds
of the scale-type parameters (`sigma > 0` for Gaussian, shape and scale
`> 0` for Gamma). -/
theorem C7_component_nonnegativity (mean sigma g b mu rate x : ℝ)
    (coeffs : List ℝ) (hs : 0 < sigma) (hg : 0 < g) (hb : 0 < b) :
    0 ≤ gaussianEval mean sigma x ∧ 0 ≤ gammaEval g b mu x ∧
    0 ≤ polynomialEval coeffs x ∧ 0 ≤ exponentialEval rate x :=
  ⟨gaussianEval_nonneg mean sigma x hs, gammaEval_nonneg g b mu x hg hb,
   polynomialEval_nonneg coeffs x, exponentialEval_nonneg rate x⟩

/-- Witness for C7 at the benchmark's parameter values and an in-range
observation. -/
theorem C7_component_nonnegativity_witness :
    (0 : ℝ) < 2 ∧ (0 : ℝ) < 20 ∧ (0 : ℝ) < 0.5 ∧
    (0 ≤ gaussianEval 10 2 7 ∧ 0 ≤ gammaEval 20 0.5 0 7 ∧
     0 ≤ polynomialEval [-0.01] 7 ∧ 0 ≤ exponentialEval 1 7) :=
  ⟨by norm_num, by norm_num, by norm_num,
   C7_component_nonnegativity 10 2 20 0.5 0 1 7 [-0.01]
     (by norm_num) (by norm_num) (by norm_num)⟩

/-- C8: The observation array is generated exactly once per benchmark run by
`benchInit`, with the fixed default length of 100 000 events, and stays
unchanged — as does the mixture-model structure — across any number of fit
iterations under any run configuration (strategy selection). -/
theorem C8_observations_immutable (g : RNGState)
    (minimizer : (List ℝ → ℝ) → List ℝ → List ℝ) (cfg : RunConfig)
    (ctx : EvalContext) (n : ℕ) (p0 : List ℝ) :
    (benchLoop minimizer cfg ctx n (benchInit g, p0)).1.observations =
        (benchInit g).observations ∧
    (benchLoop minimizer cfg ctx n (benchInit g, p0)).1.modelTerms = benchTerms ∧
    (benchInit g).observations.length = 100000 := by
  refine ⟨by rw [benchLoop_fst], by rw [benchLoop_fst]; rfl, ?_⟩
  unfold benchInit
  simp only [List.length_map]
  rw [generateData_length]
  rfl

/-- C9: `randomiseParameters` preserves the parameter-bounds invariant:
every parameter of the returned set whose bounds satisfy `min ≤ max` has its
value in `[min, max]`, because the value is set to `min + u * (max - min)`
for a uniform draw `u ∈ [0, 1]`. -/
theorem C9_randomise_preserves_bounds (parameters : List Param) (seed : ℕ)
    (g : RNGState) (p : Param)
    (hp : p ∈ (randomiseParameters parameters seed g).1)
    (h : p.min ≤ p.max) :
    p.min ≤ p.value ∧ p.value ≤ p.max := by
  obtain ⟨par, u, hu0, hu1, rfl⟩ :=
    randomiseList_mem (if seed ≠ 0 then setSeed seed else g) parameters p hp
  exact setValUniform_bounds par u hu0 hu1 h

/-- Witness for C9: the single parameter `paramA` randomised from generator
state `0` receives a value inside its bounds `[0, 1]`. -/
theorem C9_randomise_preserves_bounds_witness :
    (setValUniform paramA (uniform ⟨0⟩).1).min ≤
        (setValUniform paramA (uniform ⟨0⟩).1).value ∧
    (setValUniform paramA (uniform ⟨0⟩).1).value ≤
        (setValUniform paramA (uniform ⟨0⟩).1).max :=
  C9_randomise_preserves_bounds [paramA] 0 ⟨0⟩ _
    (by simp [randomiseParameters, randomiseList]) (by norm_num [setValUniform, paramA])

/-- C10 counterexample: `randomiseParameters` does depend on process-wide
generator state.  With the default seed `0` (no reseed, source lines 43–44),
the same call — identical parameter set and identical `seed` argument —
assigns different values depending on the prior state of the
`RooRandom::randomGenerator()` singleton, refuting "no process-wide mutable
singleton state ... independent of any prior draws from a global
generator". -/
theorem C10_global_state_counterexample :
    (randomiseParameters [paramA] 0 ⟨0⟩).1 ≠ (randomiseParameters [paramA] 0 ⟨1⟩).1 := by
  have h0 : (randomiseParameters [paramA] 0 ⟨0⟩).1 =
      [setValUniform paramA (uniform ⟨0⟩).1] := rfl
  have h1 : (randomiseParameters [paramA] 0 ⟨1⟩).1 =
      [setValUniform paramA (uniform ⟨1⟩).1] := rfl
  rw [h0, h1]
  intro h
  have hv : (setValUniform paramA (uniform ⟨0⟩).1).value =
      (setValUniform paramA (uniform ⟨1⟩).1).value := by
    injection h with h1 _
    rw [h1]
  simp only [setValUniform, paramA] at hv
  norm_num [uniform, rngNext] at hv

/-- C10 amended: the source draws from the process-wide `RooRandom`
generator singleton rather than an explicitly passed generator object, but
when a nonzero seed is supplied it reseeds that singleton first, so two
`randomiseParameters` calls with the same nonzero seed and the same
parameter set assign identical values to every parameter, independent of
any prior draws from the global generator. -/
theorem C10_seeded_randomise_deterministic (parameters : List Param)
    (seed : ℕ) (g1 g2 : RNGState) (h : seed ≠ 0) :
    (randomiseParameters parameters seed g1).1 =
      (randomiseParameters parameters seed g2).1 := by
  unfold randomiseParameters
  rw [if_pos h, if_pos h]

/-- Witness for the amended C10 at seed `1` and two distinct prior
generator states. -/
theorem C10_seeded_randomise_deterministic_witness :
    (randomiseParameters [paramA] 1 ⟨0⟩).1 = (randomiseParameters [paramA] 1 ⟨99⟩).1 :=
  C10_seeded_randomise_deterministic [paramA] 1 ⟨0⟩ ⟨99⟩ one_ne_zero

end BenchFitModel
